import Mathlib

set_option maxRecDepth 8000

/-! Shallow embedding of the ayologger repository (src/Logger.ts and
src/Templates.ts).  JavaScript strings are modelled as lists of characters
(`Str`); the JS string operations used by the source (replaceAll,
toUpperCase, toLowerCase, Array.join, falsy defaulting with the or
operator) are modelled by executable Lean functions on these lists.
Objects with optional fields are modelled by structures with `Option`
fields, where `none` stands for an absent (or undefined) field; the
`background` field, which the source types as `string | null | undefined`,
is modelled as `Option (Option Str)` so that an explicit `null`
(`some none`) is distinguished from an absent field (`none`).
External collaborators (chalk for styling, moment for dates) are kept
abstract as a record `Externals` of string-valued functions. -/

abbrev Str := List Char

/-- Character data of a Lean string literal, used to write down the
concrete JS string constants of the source. -/
def lit (s : String) : Str := s.data

/-- JS String.prototype.toUpperCase on the ASCII range. -/
def upperStr (s : Str) : Str := s.map Char.toUpper

/-- JS String.prototype.toLowerCase on the ASCII range. -/
def toLowerStr (s : Str) : Str := s.map Char.toLower

/-- JS `x || d` for a string-valued `x` that may also be null or
undefined: the default `d` is taken when `x` is nullish or the empty
string (both falsy). -/
def jsOr (x : Option Str) (d : Str) : Str :=
  match x with
  | some s => if s = [] then d else s
  | none => d

/-! Templates.ts -/

/-- src/Templates.ts, interface TemplateParams: each field is
`string | null | undefined`. -/
structure TemplateParams where
  level : Option Str
  message : Option Str
  date : Option Str

/-- Fuel-indexed worker for JS String.prototype.replaceAll with a plain
(non-empty) string pattern: scan left to right, replace each
non-overlapping occurrence of `pat` by `rep`, and continue after the
replaced occurrence (the replacement text itself is not re-scanned
within the same pass).  The fuel argument only makes the recursion
structural; it is always called with at least the length of the text. -/
def replaceAllAux (pat rep : Str) : Nat → Str → Str
  | _, [] => []
  | 0, s => s
  | fuel + 1, c :: s =>
    if pat ≠ [] ∧ pat <+: (c :: s) then
      rep ++ replaceAllAux pat rep fuel (s.drop (pat.length - 1))
    else
      c :: replaceAllAux pat rep fuel s

/-- JS `text.replaceAll(pat, rep)` for a non-empty literal pattern. -/
def replaceAll (text pat rep : Str) : Str := replaceAllAux pat rep text.length text

/-- src/Templates.ts, TemplateResolver.resolveTempalate: three chained
global replaceAll passes, in source order level, message, date, each
substituting the parameter or the empty string when it is nullish. -/
def TemplateResolver.resolveTempalate (text : Str) (params : TemplateParams) : Str :=
  replaceAll
    (replaceAll
      (replaceAll text (lit "{level}") (jsOr params.level []))
      (lit "{message}") (jsOr params.message []))
    (lit "{date}") (jsOr params.date [])

/-! Logger.ts data model -/

/-- src/Logger.ts, interface ILoggerThemeColor: `text?: string` and
`background?: string | null`. -/
structure ILoggerThemeColor where
  text : Option Str := none
  background : Option (Option Str) := none
deriving DecidableEq

/-- src/Logger.ts, interface ILoggerTheme. -/
structure ILoggerTheme where
  message : Option ILoggerThemeColor := none
  level : Option ILoggerThemeColor := none
  date : Option ILoggerThemeColor := none
deriving DecidableEq

/-- The `formatting` option of ILoggerOptions. -/
structure LoggerFormatting where
  dateFormat : Option Str := none
  baseColor : Option Str := none

/-- src/Logger.ts, interface ILoggerOptions.  The partial records keyed
by log-level names are modelled as functions from the string key to an
optional value, matching the string-keyed JS object lookups of the
source.  A TLoggerTemplate is a zero-argument producer `() => string`;
it is modelled by the string it returns. -/
structure ILoggerOptions where
  global : Option ILoggerTheme := none
  theme : Option (Str → Option ILoggerTheme) := none
  formatting : Option LoggerFormatting := none
  templates : Option (Str → Option Str) := none
  logNames : Option (Str → Option Str) := none

/-- enum DefaultOptionConstants (src/Logger.ts). -/
def DefaultOptionConstants.TEXT_COLOR : Str := lit "#e9eef7"

def DefaultOptionConstants.MESSAGE_COLOR : Str := lit "#83ff75"

def DefaultOptionConstants.DATE_COLOR : Str := lit "#ff9d5c"

def DefaultOptionConstants.INFO_BACKGROUND : Str := lit "#72a1f7"

def DefaultOptionConstants.WARN_BACKGROUND : Str := lit "#ffeb8a"

def DefaultOptionConstants.ERROR_BACKGROUND : Str := lit "#ff2e3f"

def DefaultOptionConstants.SUCCESS_BACKGROUND : Str := lit "#68fc68"

def DefaultOptionConstants.DEBUG_BACKGROUND : Str := lit "#ff8cf2"

def DefaultOptionConstants.BASE_TEMPLATE : Str := lit "{level} | {date} | {message}"

/-- enum LogLevelType: the runtime values of the enum members are the
uppercase strings; these are what the public methods pass to
universalLog. -/
def LogLevelType.INFO : Str := lit "INFO"

def LogLevelType.SUCCESS : Str := lit "SUCCESS"

def LogLevelType.ERROR : Str := lit "ERROR"

def LogLevelType.WARN : Str := lit "WARN"

def LogLevelType.DEBUG : Str := lit "DEBUG"

/-- The `theme` map of Logger.defaultSettings: each of the five
lowercase level keys maps to a theme whose level region has only a
background color. -/
def Logger.defaultThemeMap : Str → Option ILoggerTheme := fun k =>
  if k = lit "info" then
    some { level := some { background := some (some DefaultOptionConstants.INFO_BACKGROUND) } }
  else if k = lit "warn" then
    some { level := some { background := some (some DefaultOptionConstants.WARN_BACKGROUND) } }
  else if k = lit "error" then
    some { level := some { background := some (some DefaultOptionConstants.ERROR_BACKGROUND) } }
  else if k = lit "success" then
    some { level := some { background := some (some DefaultOptionConstants.SUCCESS_BACKGROUND) } }
  else if k = lit "debug" then
    some { level := some { background := some (some DefaultOptionConstants.DEBUG_BACKGROUND) } }
  else none

/-- The `templates` map of Logger.defaultSettings: each of the five
lowercase level keys maps to a producer of the base template. -/
def Logger.defaultTemplates : Str → Option Str := fun k =>
  if k = lit "info" ∨ k = lit "warn" ∨ k = lit "debug" ∨ k = lit "success" ∨ k = lit "error" then
    some DefaultOptionConstants.BASE_TEMPLATE
  else none

/-- Logger.defaultSettings (src/Logger.ts lines 102-148).  Note that the
returned object has no `logNames` key. -/
def Logger.defaultSettings : ILoggerOptions :=
  { global := some
      { level := some { text := some DefaultOptionConstants.TEXT_COLOR }
        message := some { text := some DefaultOptionConstants.MESSAGE_COLOR }
        date := some { text := some DefaultOptionConstants.DATE_COLOR } }
    theme := some Logger.defaultThemeMap
    formatting := some
      { dateFormat := some (lit "D MMM YYYY HH:mm:ss")
        baseColor := some DefaultOptionConstants.TEXT_COLOR }
    templates := some Logger.defaultTemplates
    logNames := none }

/-- The Logger constructor's configuration build (line 95):
`this.options = { ...this.defaultSettings(), ...options }` — a single
top-level object spread, so each top-level key present on the user
object wholesale-replaces the corresponding default. -/
def Logger.mkOptions : Option ILoggerOptions → ILoggerOptions
  | none => Logger.defaultSettings
  | some u =>
    { global := u.global <|> Logger.defaultSettings.global
      theme := u.theme <|> Logger.defaultSettings.theme
      formatting := u.formatting <|> Logger.defaultSettings.formatting
      templates := u.templates <|> Logger.defaultSettings.templates
      logNames := u.logNames <|> Logger.defaultSettings.logNames }

/-- The external collaborators: chalk.hex(color) and chalk.bgHex(color)
applied to a string, and moment().format(pattern). -/
structure Externals where
  chalkHex : Str → Str → Str
  chalkBgHex : Str → Str → Str
  momentFormat : Str → Str

/-- The object spread `{ ...global, ...local }` inside Logger.applyTheme,
after the `= {}` parameter defaults: field by field, a key present on
the local color spec wins over the global one. -/
def mergedColor (loc glob : Option ILoggerThemeColor) : ILoggerThemeColor :=
  { text := (loc.getD {}).text <|> (glob.getD {}).text
    background := (loc.getD {}).background <|> (glob.getD {}).background }

/-- Logger.applyTheme (src/Logger.ts lines 207-217): destructure the
spread-merged color spec, then chain `styled.bgHex(background.toUpperCase())`
when `background` is truthy and `styled.hex(text.toUpperCase())` when
`text` is truthy; the returned chalk instance applied to a string is
modelled by applying the background wrap first and the text wrap second. -/
def Logger.applyTheme (ext : Externals) (loc glob : Option ILoggerThemeColor) (s : Str) : Str :=
  let m := mergedColor loc glob
  let s1 := match m.background with
    | some (some b) => if b = [] then s else ext.chalkBgHex (upperStr b) s
    | _ => s
  match m.text with
  | some t => if t = [] then s1 else ext.chalkHex (upperStr t) s1
  | none => s1

/-- Logger.getDate: `moment().format(this.options.formatting?.dateFormat
|| "D MMM YYYY HH:mm:ss")`. -/
def Logger.getDate (ext : Externals) (o : ILoggerOptions) : Str :=
  ext.momentFormat (jsOr (o.formatting.bind (fun f => f.dateFormat)) (lit "D MMM YYYY HH:mm:ss"))

/-- The `themeSet` of universalLog:
`theme?.[level.toLowerCase()] || {}`. -/
def Logger.themeSetFor (o : ILoggerOptions) (level : Str) : ILoggerTheme :=
  (o.theme.bind (fun m => m (toLowerStr level))).getD {}

/-- The template selection of universalLog (lines 181-186): the
configured producer for `level.toLowerCase()` when present (functions
are truthy), else the base template constant. -/
def Logger.templateStrFor (o : ILoggerOptions) (level : Str) : Str :=
  match o.templates.bind (fun m => m (toLowerStr level)) with
  | some f => f
  | none => DefaultOptionConstants.BASE_TEMPLATE

/-- The level display text of universalLog (lines 166-171): the template
literal `` ` ${logNames?.[level] || level} ` ``.  Note the lookup key is
`level` itself (the uppercase enum value), not lowercased. -/
def Logger.levelDisplay (o : ILoggerOptions) (level : Str) : Str :=
  lit " " ++ jsOr (o.logNames.bind (fun m => m level)) level ++ lit " "

/-- Logger.universalLog (src/Logger.ts lines 155-199), returning the
string handed to console.log. -/
def Logger.universalLog (ext : Externals) (o : ILoggerOptions) (level : Str) (content : List Str) : Str :=
  let themeSet := Logger.themeSetFor o level
  let logLevel := Logger.applyTheme ext themeSet.level (o.global.bind (fun g => g.level))
    (Logger.levelDisplay o level)
  let logDate := Logger.applyTheme ext themeSet.date (o.global.bind (fun g => g.date))
    (Logger.getDate ext o)
  let logMessage := Logger.applyTheme ext themeSet.message (o.global.bind (fun g => g.message))
    (List.intercalate (lit " ") content)
  let templateStr := Logger.templateStrFor o level
  let baseColor := jsOr (o.formatting.bind (fun f => f.baseColor)) DefaultOptionConstants.TEXT_COLOR
  let coloredTemplate := ext.chalkHex (upperStr baseColor) templateStr
  TemplateResolver.resolveTempalate coloredTemplate
    { level := some logLevel, message := some logMessage, date := some logDate }

/-- Logger.info: delegates to universalLog with the uppercase enum value. -/
def Logger.info (ext : Externals) (o : ILoggerOptions) (content : List Str) : Str :=
  Logger.universalLog ext o LogLevelType.INFO content

/-- Logger.warn. -/
def Logger.warn (ext : Externals) (o : ILoggerOptions) (content : List Str) : Str :=
  Logger.universalLog ext o LogLevelType.WARN content

/-- Logger.success. -/
def Logger.success (ext : Externals) (o : ILoggerOptions) (content : List Str) : Str :=
  Logger.universalLog ext o LogLevelType.SUCCESS content

/-- Logger.debug. -/
def Logger.debug (ext : Externals) (o : ILoggerOptions) (content : List Str) : Str :=
  Logger.universalLog ext o LogLevelType.DEBUG content

/-- Logger.error. -/
def Logger.error (ext : Externals) (o : ILoggerOptions) (content : List Str) : Str :=
  Logger.universalLog ext o LogLevelType.ERROR content

/-- The effective color spec computed for the level region of a log call:
the pair of option values universalLog hands to applyTheme, spread-merged
exactly as applyTheme does. -/
def effectiveLevelColor (o : ILoggerOptions) (level : Str) : ILoggerThemeColor :=
  mergedColor (Logger.themeSetFor o level).level (o.global.bind (fun g => g.level))

/-- A styling and date collaborator that returns its string argument
unchanged and a fixed timestamp text: instantiating the external
collaborators with it reads off the raw (unstyled) text of a log line. -/
def extId : Externals :=
  { chalkHex := fun _ s => s
    chalkBgHex := fun _ s => s
    momentFormat := fun _ => lit "DATE" }

/-- A styling collaborator that prepends the exact color argument it
receives, used to observe what color values reach the collaborator. -/
def extEcho : Externals :=
  { chalkHex := fun c s => c ++ lit ":" ++ s
    chalkBgHex := fun c s => c ++ lit ";" ++ s
    momentFormat := fun _ => lit "DATE" }

/-! Placeholder-token machinery used to state the template-resolution
claims: a template is viewed as a flattened list of segments, each a
placeholder token or a raw chunk. -/

/-- The three placeholder kinds of the Template Resolver. -/
inductive PH where
  | level
  | message
  | date
deriving DecidableEq

/-- The literal token text of a placeholder kind. -/
def phTok : PH → Str
  | .level => lit "{level}"
  | .message => lit "{message}"
  | .date => lit "{date}"

/-- The value substituted for a placeholder kind: the corresponding
param or the empty string when it is nullish. -/
def phVal (p : TemplateParams) : PH → Str
  | .level => jsOr p.level []
  | .message => jsOr p.message []
  | .date => jsOr p.date []

/-- A template segment: a placeholder token or a raw text chunk. -/
inductive Seg where
  | tok (k : PH)
  | raw (c : Str)

/-- Flatten a segment list to the template text it denotes. -/
def flatSegs : List Seg → Str
  | [] => []
  | .tok k :: rest => phTok k ++ flatSegs rest
  | .raw c :: rest => c ++ flatSegs rest

/-- One replaceAll pass on segments: tokens of the processed kind become
raw replacement text, everything else is kept. -/
def substSeg (target : PH) (rep : Str) : Seg → Seg
  | .tok k => if k = target then .raw rep else .tok k
  | .raw c => .raw c

/-- Full substitution on segments: every token becomes its param value. -/
def substAll (p : TemplateParams) : Seg → Seg
  | .tok k => .raw (phVal p k)
  | .raw c => .raw c

/-- `noHit c pat` says no occurrence of the pattern can start inside the
chunk `c`, whatever text follows it: at every position of `c`, the
remaining chunk neither has `pat` as a prefix nor is a proper start of
`pat`. -/
def noHit (c pat : Str) : Prop :=
  ∀ i, i < c.length → ¬ pat <+: c.drop i ∧ ¬ c.drop i <+: pat

instance (c pat : Str) : Decidable (noHit c pat) := by
  unfold noHit
  exact Nat.decidableBallLT _ _

/-! Helper lemmas about the replaceAll model. -/

theorem jsOr_some_nil (m : Str) : jsOr (some m) [] = m := by
  unfold jsOr
  split <;> simp_all

theorem replaceAllAux_fuel (pat rep : Str) :
    ∀ f₁ f₂ (s : Str), s.length ≤ f₁ → s.length ≤ f₂ →
      replaceAllAux pat rep f₁ s = replaceAllAux pat rep f₂ s := by
  intro f₁
  induction f₁ with
  | zero =>
    intro f₂ s hs₁ _
    cases s with
    | nil => cases f₂ <;> rfl
    | cons c s' => simp at hs₁
  | succ f ih =>
    intro f₂ s hs₁ hs₂
    cases s with
    | nil => cases f₂ <;> rfl
    | cons c s' =>
      simp only [List.length_cons] at hs₁ hs₂
      cases f₂ with
      | zero => omega
      | succ f₂' =>
        by_cases h : pat ≠ [] ∧ pat <+: (c :: s')
        · simp only [replaceAllAux, if_pos h]
          have hd : (s'.drop (pat.length - 1)).length ≤ s'.length := by
            rw [List.length_drop]
            exact Nat.sub_le _ _
          exact congrArg (rep ++ ·) (ih f₂' _ (by omega) (by omega))
        · simp only [replaceAllAux, if_neg h]
          exact congrArg (c :: ·) (ih f₂' s' (by omega) (by omega))

theorem replaceAll_cons_pos {pat : Str} (rep : Str) {c : Char} {s : Str}
    (h₁ : pat ≠ []) (h₂ : pat <+: (c :: s)) :
    replaceAll (c :: s) pat rep = rep ++ replaceAll (s.drop (pat.length - 1)) pat rep := by
  unfold replaceAll
  simp only [List.length_cons, replaceAllAux, if_pos (And.intro h₁ h₂)]
  refine congrArg (rep ++ ·) (replaceAllAux_fuel pat rep _ _ _ ?_ le_rfl)
  rw [List.length_drop]
  exact Nat.sub_le _ _

theorem replaceAll_cons_neg {pat : Str} (rep : Str) {c : Char} {s : Str}
    (h : ¬ (pat ≠ [] ∧ pat <+: (c :: s))) :
    replaceAll (c :: s) pat rep = c :: replaceAll s pat rep := by
  unfold replaceAll
  simp only [List.length_cons, replaceAllAux, if_neg h]

theorem replaceAll_head_match {pat : Str} (h : pat ≠ []) (rep s : Str) :
    replaceAll (pat ++ s) pat rep = rep ++ replaceAll s pat rep := by
  cases pat with
  | nil => exact absurd rfl h
  | cons p ps =>
    have h₂ : (p :: ps) <+: (p :: (ps ++ s)) := ⟨s, by simp⟩
    rw [List.cons_append, replaceAll_cons_pos rep h h₂]
    simp only [List.length_cons, Nat.add_sub_cancel]
    rw [List.drop_left]

theorem replaceAll_no_occurrence {pat : Str} (rep : Str) :
    ∀ {s : Str}, ¬ pat <:+: s → replaceAll s pat rep = s := by
  intro s
  induction s with
  | nil => intro _; rfl
  | cons c s' ih =>
    intro hno
    have hcond : ¬ (pat ≠ [] ∧ pat <+: (c :: s')) := by
      rintro ⟨-, t, ht⟩
      exact hno ⟨[], t, by simpa using ht⟩
    rw [replaceAll_cons_neg rep hcond, ih]
    rintro ⟨u, v, huv⟩
    exact hno ⟨c :: u, v, by simp [huv]⟩

theorem noHit_of_cons {a : Char} {c pat : Str} (h : noHit (a :: c) pat) : noHit c pat := by
  intro i hi
  have := h (i + 1) (by simpa using Nat.succ_lt_succ hi)
  simpa using this

theorem replaceAll_skip_chunk {pat : Str} (rep : Str) :
    ∀ {c : Str}, noHit c pat → ∀ rest, replaceAll (c ++ rest) pat rep = c ++ replaceAll rest pat rep := by
  intro c
  induction c with
  | nil => intro _ rest; rfl
  | cons a c' ih =>
    intro h rest
    have h0 := h 0 (by simp)
    have h1 : ¬ pat <+: (a :: c') := by simpa using h0.1
    have h2 : ¬ (a :: c') <+: pat := by simpa using h0.2
    have hcond : ¬ (pat ≠ [] ∧ pat <+: (a :: (c' ++ rest))) := by
      rintro ⟨-, t, ht⟩
      have ht' : pat ++ t = (a :: c') ++ rest := by simpa using ht
      rcases List.append_eq_append_iff.mp ht' with
        ⟨x, hx, -⟩ | ⟨y, hy, -⟩
      · exact h1 ⟨x, hx.symm⟩
      · exact h2 ⟨y, hy.symm⟩
    rw [List.cons_append, replaceAll_cons_neg rep hcond, ih (noHit_of_cons h) rest,
      List.cons_append]

theorem phTok_ne_nil (k : PH) : phTok k ≠ [] := by
  cases k <;> decide

theorem noHit_tok {k k' : PH} (h : k ≠ k') : noHit (phTok k) (phTok k') := by
  cases k <;> cases k' <;> first
    | exact absurd rfl h
    | decide

theorem raw_of_map_subst {target : PH} {rep : Str} {segs : List Seg} {c : Str}
    (h : Seg.raw c ∈ segs.map (substSeg target rep)) :
    Seg.raw c ∈ segs ∨ c = rep := by
  rcases List.mem_map.mp h with ⟨a, ha, he⟩
  cases a with
  | raw c' =>
    left
    cases (by simpa [substSeg] using he : c' = c)
    exact ha
  | tok k =>
    right
    by_cases hk : k = target
    · simpa [substSeg, hk] using he.symm
    · simp [substSeg, hk] at he

theorem replaceAll_segments (target : PH) (rep : Str) :
    ∀ segs : List Seg, (∀ c, Seg.raw c ∈ segs → noHit c (phTok target)) →
      replaceAll (flatSegs segs) (phTok target) rep
        = flatSegs (segs.map (substSeg target rep)) := by
  intro segs
  induction segs with
  | nil => intro _; rfl
  | cons seg rest ih =>
    intro h
    have hrest : ∀ c, Seg.raw c ∈ rest → noHit c (phTok target) :=
      fun c hc => h c (List.mem_cons_of_mem _ hc)
    cases seg with
    | raw c =>
      have hc : noHit c (phTok target) := h c (List.mem_cons_self _ _)
      rw [show flatSegs (Seg.raw c :: rest) = c ++ flatSegs rest from rfl,
        replaceAll_skip_chunk rep hc (flatSegs rest), ih hrest]
      rfl
    | tok k =>
      by_cases hk : k = target
      · subst hk
        rw [show flatSegs (Seg.tok k :: rest) = phTok k ++ flatSegs rest from rfl,
          replaceAll_head_match (phTok_ne_nil k) rep (flatSegs rest), ih hrest]
        simp [substSeg, flatSegs]
      · rw [show flatSegs (Seg.tok k :: rest) = phTok k ++ flatSegs rest from rfl,
          replaceAll_skip_chunk rep (noHit_tok hk) (flatSegs rest), ih hrest]
        simp [substSeg, hk, flatSegs]

/-! Claim theorems. -/

/-- C1 (counterexample): the claim says a user `theme` map containing only
`info` leaves the default per-level themes of the other levels in effect,
so the warn level should keep its default background; in fact the
top-level spread wholesale-replaces the default theme map and the warn
level region ends with no background at all (second conjunct: with no
user options, the default warn background is in effect). -/
theorem c1_counterexample :
    (effectiveLevelColor
        (Logger.mkOptions (some
          { theme := some (fun k =>
              if k = lit "info" then
                some { level := some { background := some (some (lit "#123456")) } }
              else none) }))
        LogLevelType.WARN).background = none
    ∧ (effectiveLevelColor (Logger.mkOptions none) LogLevelType.WARN).background
        = some (some DefaultOptionConstants.WARN_BACKGROUND) := by
  exact ⟨by decide, by decide⟩

/-- C1 (amended): the constructor merges user options over defaults
field-by-field at the top level only: a supplied top-level option (such
as the `theme` map) is taken wholesale from the user, defaults included
for that option are discarded; an omitted top-level option keeps the
full built-in default. -/
theorem c1_amended_thm :
    (∀ (u : ILoggerOptions) (lvl : Str),
        Logger.themeSetFor (Logger.mkOptions (some u)) lvl
          = ((u.theme.getD Logger.defaultThemeMap) (toLowerStr lvl)).getD {})
    ∧ Logger.mkOptions none = Logger.defaultSettings
    ∧ (∀ lvl : Str,
        Logger.themeSetFor (Logger.mkOptions (some {})) lvl
          = Logger.themeSetFor Logger.defaultSettings lvl) := by
  refine ⟨?_, rfl, fun lvl => rfl⟩
  intro u lvl
  cases hu : u.theme with
  | none => simp [Logger.themeSetFor, Logger.mkOptions, hu, Logger.defaultSettings]
  | some T => simp [Logger.themeSetFor, Logger.mkOptions, hu, Logger.defaultSettings]

/-- C2 (code bug, evaluated at the failing input): constructing with a
logNames override for info and calling info yields the level region
" INFO ", not " NOTICE ": universalLog looks logNames up with the
uppercase enum value as the key, without the toLowerCase applied to the
theme and template lookups, so the lowercase user key is never found. -/
theorem c2_code_bug_check :
    Logger.levelDisplay
        (Logger.mkOptions (some
          { logNames := some (fun k => if k = lit "info" then some (lit "NOTICE") else none) }))
        LogLevelType.INFO = lit " INFO "
    ∧ Logger.info extId
        (Logger.mkOptions (some
          { logNames := some (fun k => if k = lit "info" then some (lit "NOTICE") else none) }))
        [lit "x"] = lit " INFO  | DATE | x"
    ∧ lit " INFO " ≠ lit " NOTICE " := by
  exact ⟨by decide, by decide, by decide⟩

/-- C4: for each of text and background independently, the effective
color takes the per-level value when present and the global value
otherwise, and on the spec's example (per-level background #111111 over
global {text #ffffff, background #000000}) the effective level-region
color is {text #ffffff, background #111111}. -/
theorem c4_confirmed :
    (∀ (l g : ILoggerThemeColor), l.text = none →
        (mergedColor (some l) (some g)).text = g.text)
    ∧ (∀ (l g : ILoggerThemeColor) (t : Str), l.text = some t →
        (mergedColor (some l) (some g)).text = some t)
    ∧ (∀ (l g : ILoggerThemeColor), l.background = none →
        (mergedColor (some l) (some g)).background = g.background)
    ∧ (∀ (l g : ILoggerThemeColor) (b : Option Str), l.background = some b →
        (mergedColor (some l) (some g)).background = some b)
    ∧ effectiveLevelColor
        (Logger.mkOptions (some
          { global := some
              { level := some
                  { text := some (lit "#ffffff"),
                    background := some (some (lit "#000000")) } },
            theme := some (fun k =>
              if k = lit "info" then
                some { level := some { background := some (some (lit "#111111")) } }
              else none) }))
        LogLevelType.INFO
      = { text := some (lit "#ffffff"), background := some (some (lit "#111111")) } := by
  refine ⟨fun l g h => by simp [mergedColor, h],
    fun l g t h => by simp [mergedColor, h],
    fun l g h => by simp [mergedColor, h],
    fun l g b h => by simp [mergedColor, h],
    by decide⟩

/-- C4 (witness at the spec's example values). -/
theorem c4_witness :
    (mergedColor
        (some { text := none, background := some (some (lit "#111111")) })
        (some { text := some (lit "#ffffff"), background := some (some (lit "#000000")) })).text
      = some (lit "#ffffff")
    ∧ (mergedColor
        (some { text := none, background := some (some (lit "#111111")) })
        (some { text := some (lit "#ffffff"), background := some (some (lit "#000000")) })).background
      = some (some (lit "#111111")) :=
  ⟨c4_confirmed.1 _ _ rfl, c4_confirmed.2.2.2.1 _ _ _ rfl⟩

/-- C9: the Template Resolver is deterministic: two calls with equal
inputs yield identical output (the embedding is a pure function of its
arguments, mirroring the side-effect-free source expression). -/
theorem c9_confirmed (t : Str) (p : TemplateParams) (t' : Str) (p' : TemplateParams)
    (ht : t = t') (hp : p = p') :
    TemplateResolver.resolveTempalate t p = TemplateResolver.resolveTempalate t' p' := by
  rw [ht, hp]

/-- C9 (witness at a concrete input). -/
theorem c9_witness :
    TemplateResolver.resolveTempalate (lit "{level}") { level := some (lit "a"), message := none, date := none }
      = TemplateResolver.resolveTempalate (lit "{level}") { level := some (lit "a"), message := none, date := none } :=
  c9_confirmed _ _ _ _ rfl rfl

/-- C10: a per-level background explicitly set to null is present for
the spread merge, so it overrides the global background (first
conjunct), and since null is falsy no background styling is applied at
all (second conjunct: with no text color either, the region text is
returned unstyled whatever the global background is). -/
theorem c10_confirmed :
    (∀ (t : Option Str) (g : ILoggerThemeColor),
        (mergedColor (some { text := t, background := some none }) (some g)).background
          = some none)
    ∧ (∀ (e : Externals) (gb : Option (Option Str)) (s : Str),
        Logger.applyTheme e (some { text := none, background := some none })
          (some { text := none, background := gb }) s = s) := by
  constructor
  · intro t g
    simp [mergedColor]
  · intro e gb s
    simp [Logger.applyTheme, mergedColor]

/-- Every key of the default templates map yields the base template or
nothing. -/
theorem defaultTemplates_cases (k : Str) :
    Logger.defaultTemplates k = some DefaultOptionConstants.BASE_TEMPLATE
    ∨ Logger.defaultTemplates k = none := by
  unfold Logger.defaultTemplates
  split <;> simp

/-- C6: the template used for a log call is the configured producer's
result for the level when one is present, else the built-in default
template text.  The fallback is covered in both ways it can arise: no
user templates option at all, and a user templates map that lacks the
level (the claim's "no templates.warn override"); and two end-to-end
warn("x") calls — one with no user options and one whose templates map
holds only an info producer — both render all three regions through the
default template shape. -/
theorem c6_confirmed :
    (∀ (u : ILoggerOptions) (lvl : Str), u.templates = none →
        Logger.templateStrFor (Logger.mkOptions (some u)) lvl
          = DefaultOptionConstants.BASE_TEMPLATE)
    ∧ (∀ (u : ILoggerOptions) (m : Str → Option Str) (f : Str) (lvl : Str),
        u.templates = some m → m (toLowerStr lvl) = some f →
        Logger.templateStrFor (Logger.mkOptions (some u)) lvl = f)
    ∧ (∀ (u : ILoggerOptions) (m : Str → Option Str) (lvl : Str),
        u.templates = some m → m (toLowerStr lvl) = none →
        Logger.templateStrFor (Logger.mkOptions (some u)) lvl
          = DefaultOptionConstants.BASE_TEMPLATE)
    ∧ Logger.warn extId (Logger.mkOptions (some {})) [lit "x"] = lit " WARN  | DATE | x"
    ∧ Logger.warn extId
        (Logger.mkOptions (some
          { templates := some (fun k => if k = lit "info" then some (lit "only {message}") else none) }))
        [lit "x"]
      = lit " WARN  | DATE | x" := by
  refine ⟨?_, ?_, ?_, by decide, by decide⟩
  · intro u lvl h
    rcases defaultTemplates_cases (toLowerStr lvl) with h2 | h2 <;>
      simp [Logger.templateStrFor, Logger.mkOptions, h, Logger.defaultSettings, h2]
  · intro u m f lvl hm hf
    simp [Logger.templateStrFor, Logger.mkOptions, hm, hf]
  · intro u m lvl hm hf
    simp [Logger.templateStrFor, Logger.mkOptions, hm, hf]

/-- C6 (witness at concrete inputs for the three hypothesised
conjuncts: no templates option, a map holding the level, and a partial
map lacking the level). -/
theorem c6_witness :
    Logger.templateStrFor (Logger.mkOptions (some {})) LogLevelType.WARN
      = DefaultOptionConstants.BASE_TEMPLATE
    ∧ Logger.templateStrFor
        (Logger.mkOptions (some { templates := some (fun _ => some (lit "T {level}")) }))
        LogLevelType.WARN
      = lit "T {level}"
    ∧ Logger.templateStrFor
        (Logger.mkOptions (some
          { templates := some (fun k => if k = lit "info" then some (lit "only {message}") else none) }))
        LogLevelType.WARN
      = DefaultOptionConstants.BASE_TEMPLATE :=
  ⟨c6_confirmed.1 {} LogLevelType.WARN rfl,
   c6_confirmed.2.1 _ _ _ LogLevelType.WARN rfl rfl,
   c6_confirmed.2.2.1 _ _ LogLevelType.WARN rfl (by decide)⟩

/-- applyTheme only calls the styling collaborator at uppercased colors,
so two collaborators agreeing on uppercased color arguments style
identically. -/
theorem applyTheme_ext_eq {e e' : Externals}
    (h1 : ∀ c s, e.chalkHex (upperStr c) s = e'.chalkHex (upperStr c) s)
    (h2 : ∀ c s, e.chalkBgHex (upperStr c) s = e'.chalkBgHex (upperStr c) s)
    (loc glob : Option ILoggerThemeColor) (s : Str) :
    Logger.applyTheme e loc glob s = Logger.applyTheme e' loc glob s := by
  simp only [Logger.applyTheme]
  rcases (mergedColor loc glob).background with - | (- | b) <;>
    rcases (mergedColor loc glob).text with - | t <;>
      simp only [] <;> split_ifs <;> simp [h1, h2]

/-- universalLog only calls the collaborators at uppercased colors and
the configured date pattern. -/
theorem universalLog_ext_eq {e e' : Externals}
    (h1 : ∀ c s, e.chalkHex (upperStr c) s = e'.chalkHex (upperStr c) s)
    (h2 : ∀ c s, e.chalkBgHex (upperStr c) s = e'.chalkBgHex (upperStr c) s)
    (hm : e.momentFormat = e'.momentFormat)
    (o : ILoggerOptions) (level : Str) (content : List Str) :
    Logger.universalLog e o level content = Logger.universalLog e' o level content := by
  simp only [Logger.universalLog, Logger.getDate, hm, h1,
    applyTheme_ext_eq h1 h2]

/-- C7: every color value handed to the styling collaborator — region
text colors, region background colors, and the base color wrapping the
template — is first normalized to uppercase: the whole log output
depends on the collaborator only through its behavior at uppercased
color arguments (first conjunct), and a collaborator echoing its color
argument exhibits the uppercased form of a lowercase configured color
(second conjunct). -/
theorem c7_confirmed :
    (∀ (e e' : Externals),
        (∀ c s, e.chalkHex (upperStr c) s = e'.chalkHex (upperStr c) s) →
        (∀ c s, e.chalkBgHex (upperStr c) s = e'.chalkBgHex (upperStr c) s) →
        e.momentFormat = e'.momentFormat →
        ∀ o level content,
          Logger.universalLog e o level content = Logger.universalLog e' o level content)
    ∧ Logger.applyTheme extEcho (some { text := some (lit "#ab12cd") }) none (lit "x")
      = lit "#AB12CD:x" :=
  ⟨fun _ _ h1 h2 hm o level content => universalLog_ext_eq h1 h2 hm o level content,
   by decide⟩

/-- C7 (witness for the hypothesised conjunct at concrete collaborators
and inputs). -/
theorem c7_witness :
    Logger.universalLog extId (Logger.mkOptions none) LogLevelType.INFO [lit "x"]
      = Logger.universalLog extId (Logger.mkOptions none) LogLevelType.INFO [lit "x"] :=
  c7_confirmed.1 extId extId (fun _ _ => rfl) (fun _ _ => rfl) rfl _ _ _

/-- C8: the embedded log-emission procedure and Template Resolver are
total functions: every call produces an output string (first conjunct),
and the unusual but valid inputs named by the spec — empty content list,
a template with no placeholders, a template with repeated placeholders,
a color string without a leading marker — each evaluate to a concrete
output line. -/
theorem c8_confirmed :
    (∀ (e : Externals) (o : ILoggerOptions) (level : Str) (content : List Str),
        ∃ out : Str, Logger.universalLog e o level content = out)
    ∧ Logger.universalLog extId (Logger.mkOptions none) LogLevelType.INFO []
      = lit " INFO  | DATE | "
    ∧ TemplateResolver.resolveTempalate (lit "no placeholders here")
        { level := some (lit "A"), message := some (lit "B"), date := some (lit "C") }
      = lit "no placeholders here"
    ∧ TemplateResolver.resolveTempalate (lit "{message}-{message}")
        { level := some [], message := some (lit "x"), date := some [] }
      = lit "x-x"
    ∧ Logger.universalLog extId
        (Logger.mkOptions (some { formatting := some { baseColor := some (lit "zzz") } }))
        LogLevelType.WARN [lit "m"]
      = lit " WARN  | DATE | m" :=
  ⟨fun _ _ _ _ => ⟨_, rfl⟩, by decide, by decide, by decide, by decide⟩
